import Mathlib

/-!
Verification of `advanced-data-structures/van-emde-boas/counting-nodes/math.py`.

The script defines two arithmetic functions over Python's arbitrary-precision
integers and a driver that prints both for `i = 1 .. h`:

  def prod(i, h):
      result = 1
      k = 1
      while k <= i:
          result *= pow(2, pow(2, h - k))
          k += 1
      return result

  def prod2(i):
      return pow(2, pow(2, 2 - i))

  def test(h):
      for i in range(1, h + 1):
          print "prod i = %d: %d" % (i, prod(i, h));
          print "prod2 i = %d: %d" % (i, prod2(i));

  test(2)

Python integers are embedded as `ℤ`.  Inside `prod`'s loop the inner
`pow(2, h - k)` has `h - k ≥ 0` whenever `i ≤ h` (the region every claim
uses); we write the exponent as `(h - k).toNat`, which agrees with the
source there.  For `i > h` (never exercised by the script or the claims)
Python would leave the integers and produce a float.  Likewise `prod2`
stays in the integers exactly when `i ≤ 2`; the mathematical value
`2^(2^(2-i))` for arbitrary `i` is modelled over `ℝ` as `prod2R`.

For `i ≥ 3` the source's `prod2(i)` is a Python 2 float: `pow(2, 2 - i)`
with a negative exponent is the float `2^(2-i) ∈ (0, 1/2]`, and
`pow(2., ...)` of it lies in `[1.0, 2.0)` — the exact real value is in
`(1, √2]`, far from both integer boundaries, and even when the tiny
exponent underflows to `0.0` the result is exactly `1.0`.  The `%d`
format then truncates toward zero, printing `1`.  The printed value is
therefore `⌊2^(2^(2-i))⌋`, the floor of the real power tower; `prod2Printed`
models it and is proved equal to `⌊prod2R i⌋` for every `i`
(`prod2Printed_eq_floor`).
-/

/-- State of `prod`'s while loop after `n` iterations: the loop body for
iteration `n` (Python's `k = n`) multiplies the accumulator by
`2 ^ 2 ^ (h - n)`. -/
def prodGo (h : ℤ) : ℕ → ℤ
  | 0 => 1
  | n + 1 => prodGo h n * 2 ^ 2 ^ (h - ((n : ℤ) + 1)).toNat

/-- `prod(i, h)` from the source: the while loop `k = 1 .. i` runs
`i.toNat` times (zero times when `i < 1`). -/
def prod (i h : ℤ) : ℤ := prodGo h i.toNat

/-- `prod2(i)` from the source, on the integer domain `i ≤ 2` where
`2 - i ≥ 0` (for `i > 2` Python would return a float; see `prod2R`). -/
def prod2 (i : ℤ) : ℤ := 2 ^ 2 ^ (2 - i).toNat

/-- The mathematical (real) value `2^(2^(2-i))` that `prod2` denotes,
meaningful for every integer `i`. -/
noncomputable def prod2R (i : ℤ) : ℝ := (2 : ℝ) ^ ((2 : ℝ) ^ ((2 - i : ℤ) : ℝ))

/-- Integer printed by `"%d" % prod2(i)`: the exact `prod2 i` when the
source stays in the integers (`i ≤ 2`); for `i ≥ 3` the source's float
result lies in `[1.0, 2.0)` (see the header note), so `%d` truncation
prints 1.  Proved equal to `⌊prod2R i⌋` for all `i` in
`prod2Printed_eq_floor`. -/
def prod2Printed (i : ℤ) : ℤ := if i ≤ 2 then prod2 i else 1

/-- The spec's formula for `computeA`: the product, for `k` from 1 to `i`
inclusive, of `2^(2^(h-k))`. -/
def specProdA (i h : ℤ) : ℤ := ∏ k ∈ Finset.Icc (1 : ℤ) i, 2 ^ 2 ^ (h - k).toNat

/-- First line printed for index `i`: Python 2's `"prod i = %d: %d" % (i, prod(i, h))`,
where `%d` prints the decimal numeral. -/
def lineA (i v : ℤ) : String :=
  "prod i = " ++ toString i ++ ": " ++ toString v

/-- Second line printed for index `i`: `"prod2 i = %d: %d" % (i, prod2(i))`. -/
def lineB (i v : ℤ) : String :=
  "prod2 i = " ++ toString i ++ ": " ++ toString v

/-- Loop body of `test(h)` for iteration `j` (Python's `i = j + 1`): the
two lines printed, in order.  The second line carries `prod2Printed`,
the `%d`-truncation of `prod2`'s result (which is a float once
`j + 1 ≥ 3`). -/
def demoPair (h : ℤ) (j : ℕ) : List String :=
  [lineA ((j : ℤ) + 1) (prod ((j : ℤ) + 1) h),
   lineB ((j : ℤ) + 1) (prod2Printed ((j : ℤ) + 1))]

/-- Source `test(h)`: the list of lines printed to standard output, in
order.  `range(1, h + 1)` visits `i = 1, …, h`. -/
def test (h : ℤ) : List String :=
  (List.range h.toNat).flatMap (demoPair h)

example : prod 1 2 = 4 := by decide
example : prod 2 2 = 8 := by decide
example : prod2 1 = 4 := by decide
example : prod2 2 = 2 := by decide
example : test 2 = ["prod i = 1: 4", "prod2 i = 1: 4", "prod i = 2: 8", "prod2 i = 2: 2"] := by
  decide

/-! ### General lemmas about the loop -/

/-- Interval splitting for integer `Icc` starting at 1. -/
lemma Icc_one_succ (n : ℤ) (hn : 0 ≤ n) :
    Finset.Icc (1 : ℤ) (n + 1) = insert (n + 1) (Finset.Icc 1 n) := by
  ext x
  simp only [Finset.mem_Icc, Finset.mem_insert]
  omega

/-- The spec-side product over `k ∈ Icc 1 n` coincides with the loop
accumulator after `n` iterations. -/
lemma specProdA_eq_prodGo (h : ℤ) (n : ℕ) : specProdA ((n : ℕ) : ℤ) h = prodGo h n := by
  induction n with
  | zero =>
    rw [specProdA, Nat.cast_zero, Finset.Icc_eq_empty (by omega), Finset.prod_empty]
    rfl
  | succ m ih =>
    have hcast : (((m + 1 : ℕ)) : ℤ) = (m : ℤ) + 1 := by push_cast; ring
    have hmem : ((m : ℤ) + 1) ∉ Finset.Icc (1 : ℤ) (m : ℤ) := by
      simp only [Finset.mem_Icc]
      omega
    rw [specProdA, hcast, Icc_one_succ _ (by positivity), Finset.prod_insert hmem]
    simp only [prodGo]
    rw [← ih, specProdA]
    ring

/-- Closed form of the loop accumulator: after `n ≤ H` iterations it holds
`2 ^ (2 ^ H - 2 ^ (H - n))`. -/
lemma prodGo_closed (H n : ℕ) (hn : n ≤ H) :
    prodGo (H : ℤ) n = 2 ^ (2 ^ H - 2 ^ (H - n)) := by
  induction n with
  | zero => simp [prodGo]
  | succ m ih =>
    have hm : m ≤ H := by omega
    have htn : ((H : ℤ) - ((m : ℤ) + 1)).toNat = H - (m + 1) := by omega
    simp only [prodGo]
    rw [htn, ih hm, ← pow_add]
    congr 1
    have h1 : 2 ^ (H - m) = 2 ^ (H - (m + 1)) * 2 := by
      rw [← pow_succ]
      congr 1
      omega
    have h2 : 2 ^ (H - m) ≤ 2 ^ H := Nat.pow_le_pow_right (by omega) (by omega)
    omega

/-- Closed form of `prod` on the meaningful domain `0 ≤ i ≤ h`. -/
lemma prod_eq_closed (i h : ℤ) (h0 : 0 ≤ i) (h1 : i ≤ h) :
    prod i h = 2 ^ (2 ^ h.toNat - 2 ^ (h - i).toNat) := by
  have hH : ((h.toNat : ℕ) : ℤ) = h := Int.toNat_of_nonneg (by omega)
  have hkey := prodGo_closed h.toNat i.toNat (by omega)
  rw [hH] at hkey
  have hsub : (h - i).toNat = h.toNat - i.toNat := by omega
  rw [prod, hkey, hsub]

/-! ### Claim theorems -/

/-- C1: for all integers `i`, `h` with `1 ≤ i ≤ h`, `prod i h` returns the
product, for `k` from 1 to `i` inclusive, of `2^(2^(h-k))`. -/
theorem prod_eq_spec_product (i h : ℤ) (h1 : 1 ≤ i) (_h2 : i ≤ h) :
    prod i h = specProdA i h := by
  have hi : ((i.toNat : ℕ) : ℤ) = i := Int.toNat_of_nonneg (by omega)
  rw [prod, ← specProdA_eq_prodGo h i.toNat, hi]

/-- Witness for C1 at `i = 2`, `h = 3`: `prod 2 3 = 2^(2^2) * 2^(2^1) = 64`. -/
theorem prod_eq_spec_product_witness :
    prod 2 3 = specProdA 2 3 ∧ prod 2 3 = 64 :=
  ⟨prod_eq_spec_product 2 3 (by decide) (by decide), by decide⟩

/-- C3 counterexample: `prod` and `prod2` do NOT agree at `h = 2` for
`i = 2`: `prod 2 2 = 8` while `prod2 2 = 2`. -/
theorem prod_prod2_disagree_at_two :
    prod 2 2 = 8 ∧ prod2 2 = 2 ∧ prod 2 2 ≠ prod2 2 := by decide

/-- C3 amended: at `h = 2` the two functions agree at `i = 1` (both 4) but
differ at `i = 2` (`prod 2 2 = 8`, `prod2 2 = 2`). -/
theorem prod_prod2_agree_only_at_one :
    prod 1 2 = prod2 1 ∧ prod 1 2 = 4 ∧ prod 2 2 = 8 ∧ prod2 2 = 2 := by decide

/-- C4 counterexample: `prod h h = 2` fails at `h = 2`, where the value is 8. -/
theorem prod_h_h_ne_two_at_two : prod 2 2 = 8 ∧ prod 2 2 ≠ 2 := by decide

/-- C4 amended: for `h ≥ 1`, `prod h h = 2^(2^h - 1)`; this equals 2 only
at `h = 1`. -/
theorem prod_h_h_closed (h : ℤ) (h1 : 1 ≤ h) : prod h h = 2 ^ (2 ^ h.toNat - 1) := by
  have hc := prod_eq_closed h h (by omega) le_rfl
  simpa using hc

/-- Witness for the amended C4 at `h = 1`: `prod 1 1 = 2^(2^1 - 1) = 2`. -/
theorem prod_h_h_closed_witness :
    prod 1 1 = 2 ^ (2 ^ (1 : ℤ).toNat - 1) ∧ prod 1 1 = 2 :=
  ⟨prod_h_h_closed 1 (by decide), by decide⟩

/-- C5: `prod2 1 = 2^(2^1) = 4` and `prod2 2 = 2^(2^0) = 2`. -/
theorem prod2_values : prod2 1 = 4 ∧ prod2 2 = 2 := by decide

/-- C6: for every integer `h` and every `i < 1`, the loop body never runs
and `prod i h` is the empty product 1. -/
theorem prod_nonpos_index (i h : ℤ) (h1 : i < 1) : prod i h = 1 := by
  rw [prod, Int.toNat_of_nonpos (by omega)]
  rfl

/-- Witness for C6 at `i = 0`, `h = 5`. -/
theorem prod_nonpos_index_witness : prod 0 5 = 1 :=
  prod_nonpos_index 0 5 (by decide)

/-- C9: on `0 ≤ i ≤ h` the loop of `prod` computes exactly
`2 ^ (2^h - 2^(h-i))`. -/
theorem prod_closed_form (i h : ℤ) (h0 : 0 ≤ i) (h1 : i ≤ h) :
    prod i h = 2 ^ (2 ^ h.toNat - 2 ^ (h - i).toNat) :=
  prod_eq_closed i h h0 h1

/-- Witness for C9 at `i = 2`, `h = 3`: `prod 2 3 = 2^(8-2) = 64`. -/
theorem prod_closed_form_witness :
    prod 2 3 = 2 ^ (2 ^ (3 : ℤ).toNat - 2 ^ ((3 : ℤ) - 2).toNat) ∧ prod 2 3 = 64 :=
  ⟨prod_closed_form 2 3 (by decide) (by decide), by decide⟩

/-- C10: `prod` is strictly monotone in `i` on `0 ≤ i < j ≤ h`. -/
theorem prod_strictMono (i j h : ℤ) (h0 : 0 ≤ i) (h1 : i < j) (h2 : j ≤ h) :
    prod i h < prod j h := by
  rw [prod_eq_closed i h h0 (by omega), prod_eq_closed j h (by omega) h2]
  have hle : 2 ^ (h - i).toNat ≤ 2 ^ h.toNat := Nat.pow_le_pow_right (by omega) (by omega)
  have hlt2 : 2 ^ (h - j).toNat < 2 ^ (h - i).toNat :=
    Nat.pow_lt_pow_right (by omega) (by omega)
  exact pow_lt_pow_right₀ (by norm_num) (by omega)

/-- Witness for C10 at `i = 0 < j = 1 ≤ h = 1`: `1 = prod 0 1 < prod 1 1 = 2`. -/
theorem prod_strictMono_witness :
    prod 0 1 < prod 1 1 ∧ prod 0 1 = 1 ∧ prod 1 1 = 2 :=
  ⟨prod_strictMono 0 1 1 (by decide) (by decide) (by decide), by decide, by decide⟩

/-- C2 counterexample: `test 2` does not produce the four lines claimed by
the spec; the third claimed line `prod i = 2: 6` is wrong, since
`prod 2 2 = 2^(2^1) * 2^(2^0) = 8`. -/
theorem test_two_not_spec_output :
    test 2 ≠ ["prod i = 1: 4", "prod2 i = 1: 4", "prod i = 2: 6", "prod2 i = 2: 2"] := by
  decide

/-- C2 amended: `test 2` prints exactly the four lines
`prod i = 1: 4`, `prod2 i = 1: 4`, `prod i = 2: 8`, `prod2 i = 2: 2`,
in that order. -/
theorem test_two_output :
    test 2 = ["prod i = 1: 4", "prod2 i = 1: 4", "prod i = 2: 8", "prod2 i = 2: 2"] := by
  decide

/-! ### The real value of prod2 -/

/-- On `i ≤ 2` the real power tower agrees with the integer `prod2`. -/
lemma prod2R_eq_of_le (i : ℤ) (hi : i ≤ 2) : prod2R i = ((prod2 i : ℤ) : ℝ) := by
  have h0 : ((2 - i).toNat : ℤ) = 2 - i := Int.toNat_of_nonneg (by omega)
  have hm : ((2 - i : ℤ) : ℝ) = (((2 - i).toNat : ℕ) : ℝ) := by exact_mod_cast h0.symm
  have h2 : ((2 : ℝ) ^ (2 - i).toNat) = (((2 ^ (2 - i).toNat : ℕ) : ℕ) : ℝ) := by
    push_cast
    ring
  rw [prod2R, hm, Real.rpow_natCast, h2, Real.rpow_natCast, prod2]
  push_cast
  ring

/-- On `i > 2` the real power tower lies strictly between 1 and 2. -/
lemma prod2R_between (i : ℤ) (hi : 2 < i) : 1 < prod2R i ∧ prod2R i < 2 := by
  have hm : (2 - i : ℤ) = -(((i - 2).toNat : ℕ) : ℤ) := by omega
  have hmr : ((2 - i : ℤ) : ℝ) = -(((i - 2).toNat : ℕ) : ℝ) := by exact_mod_cast hm
  rw [prod2R, hmr, Real.rpow_neg (by norm_num), Real.rpow_natCast]
  have hpow : (1 : ℝ) < 2 ^ (i - 2).toNat := by
    apply one_lt_pow₀ (by norm_num)
    omega
  have hx0 : (0 : ℝ) < ((2 : ℝ) ^ (i - 2).toNat)⁻¹ := by positivity
  have hx1 : ((2 : ℝ) ^ (i - 2).toNat)⁻¹ < 1 := inv_lt_one_of_one_lt₀ hpow
  constructor
  · exact (Real.one_lt_rpow_iff_of_pos (by norm_num)).mpr (Or.inl ⟨by norm_num, hx0⟩)
  · calc (2 : ℝ) ^ (((2 : ℝ) ^ (i - 2).toNat)⁻¹)
        < (2 : ℝ) ^ (1 : ℝ) := (Real.rpow_lt_rpow_left_iff (by norm_num)).mpr hx1
      _ = 2 := Real.rpow_one 2

/-- The printed `prod2` value is the floor (= `%d` truncation, since the
value is positive) of the real power tower, for every `i`. -/
lemma prod2Printed_eq_floor (i : ℤ) : prod2Printed i = ⌊prod2R i⌋ := by
  rcases le_or_lt i 2 with hi | hi
  · rw [prod2Printed, if_pos hi, prod2R_eq_of_le i hi, Int.floor_intCast]
  · rw [prod2Printed, if_neg (by omega)]
    obtain ⟨hlo, hhi⟩ := prod2R_between i hi
    symm
    rw [Int.floor_eq_iff]
    constructor
    · exact_mod_cast le_of_lt hlo
    · push_cast
      linarith

/-- C8: for `i ≤ 2`, `prod2 i` is the exact integer `2^(2^(2-i))` and the
real power tower equals it; for `i > 2` the exponent `2 - i` is negative
and the real value `2^(2^(2-i))` is not an integer. -/
theorem prod2_exact_and_nonintegral (i : ℤ) :
    (i ≤ 2 → prod2 i = 2 ^ 2 ^ (2 - i).toNat ∧ prod2R i = ((prod2 i : ℤ) : ℝ)) ∧
    (2 < i → 2 - i < 0 ∧ ∀ n : ℤ, prod2R i ≠ (n : ℝ)) := by
  constructor
  · intro hi
    exact ⟨rfl, prod2R_eq_of_le i hi⟩
  · intro hi
    refine ⟨by omega, ?_⟩
    intro n hn
    obtain ⟨hlo, hhi⟩ := prod2R_between i hi
    rw [hn] at hlo hhi
    have hlo2 : (1 : ℤ) < n := by exact_mod_cast hlo
    have hhi2 : n < (2 : ℤ) := by exact_mod_cast hhi
    omega

/-- Witness for C8 at `i = 1` (exact value 4) and `i = 3` (never an
integer). -/
theorem prod2_exact_and_nonintegral_witness :
    (prod2 1 = 4 ∧ prod2R 1 = ((4 : ℤ) : ℝ)) ∧ ∀ n : ℤ, prod2R 3 ≠ (n : ℝ) := by
  have h1 := (prod2_exact_and_nonintegral 1).1 (by norm_num)
  have h3 := (prod2_exact_and_nonintegral 3).2 (by norm_num)
  refine ⟨⟨by decide, ?_⟩, h3.2⟩
  have hv : prod2 1 = 4 := by decide
  rw [h1.2, hv]

/-! ### Output structure of the driver -/

/-- Indexing into a `flatMap` of two-line blocks over `List.range n`:
the block for iteration `j` sits at positions `2j` and `2j + 1`, and the
total length is `2n`. -/
lemma range_flatMap_pair (g : ℕ → List String) (hg : ∀ i, (g i).length = 2) (n : ℕ) :
    ((List.range n).flatMap g).length = 2 * n ∧
    ∀ j, j < n → ((List.range n).flatMap g)[2 * j]? = (g j)[0]? ∧
      ((List.range n).flatMap g)[2 * j + 1]? = (g j)[1]? := by
  induction n with
  | zero => simp
  | succ m ih =>
    have hsingle : [m].flatMap g = g m := by simp
    have hlen : ((List.range m).flatMap g).length = 2 * m := ih.1
    rw [List.range_succ, List.flatMap_append, hsingle]
    refine ⟨?_, ?_⟩
    · rw [List.length_append, hlen, hg m]
      ring
    · intro j hj
      rcases Nat.lt_or_ge j m with hjm | hjm
      · have h2j : 2 * j < ((List.range m).flatMap g).length := by omega
        have h2j1 : 2 * j + 1 < ((List.range m).flatMap g).length := by omega
        rw [List.getElem?_append, if_pos h2j, List.getElem?_append, if_pos h2j1]
        exact ih.2 j hjm
      · have hje : j = m := by omega
        subst hje
        rw [List.getElem?_append_right (by omega), List.getElem?_append_right (by omega)]
        constructor
        · congr 1
          omega
        · congr 1
          omega

/-- C7 counterexample at `h = 3`: the sixth line printed is
`prod2 i = 3: 1`, yet `computeB(3)`'s value `2^(2^(-1))` lies strictly
between 1 and 2, so no printed integer line — in particular not this
one — reports `computeB(3)`. -/
theorem test_three_prod2_line_not_computeB :
    (test 3)[5]? = some "prod2 i = 3: 1" ∧ 1 < prod2R 3 ∧ prod2R 3 < 2 :=
  ⟨by decide, prod2R_between 3 (by norm_num)⟩

/-- C7 amended: for `h ≥ 1`, `test h` prints exactly `2h` lines; for each
`1 ≤ i ≤ h` the lines at positions `2(i-1)` and `2(i-1)+1` are the
`prod`-line for `i` and the line `prod2 i = <i>: <⌊2^(2^(2-i))⌋>` — the
`%d`-truncation of `prod2`'s value, equal to `prod2 i` for `i ≤ 2` and to
1 for `i ≥ 3` — so the indices appear in increasing order with the `prod`
line first and nothing else is printed. -/
theorem test_output_structure (h : ℤ) (hh : 1 ≤ h) :
    (test h).length = 2 * h.toNat ∧
    ∀ i : ℤ, 1 ≤ i → i ≤ h →
      (test h)[2 * (i - 1).toNat]? = some (lineA i (prod i h)) ∧
      (test h)[2 * (i - 1).toNat + 1]? = some (lineB i (prod2Printed i)) ∧
      prod2Printed i = ⌊prod2R i⌋ := by
  have hg : ∀ j, (demoPair h j).length = 2 := fun j => rfl
  have hmain := range_flatMap_pair (demoPair h) hg h.toNat
  refine ⟨by simp only [test]; exact hmain.1, ?_⟩
  intro i h1 h2
  have hj : (((i - 1).toNat : ℕ) : ℤ) + 1 = i := by omega
  have hjlt : (i - 1).toNat < h.toNat := by omega
  obtain ⟨e0, e1⟩ := hmain.2 (i - 1).toNat hjlt
  refine ⟨?_, ?_, prod2Printed_eq_floor i⟩
  · simp only [test]
    rw [e0]
    simp only [demoPair, List.getElem?_cons_zero]
    rw [hj]
  · simp only [test]
    rw [e1]
    simp only [demoPair, List.getElem?_cons_succ, List.getElem?_cons_zero]
    rw [hj]

/-- Witness for the amended C7 at `h = 3`, `i = 3`: six lines total, the
last two being `prod i = 3: 128` and the truncated `prod2 i = 3: 1`. -/
theorem test_output_structure_witness :
    (test 3).length = 2 * (3 : ℤ).toNat ∧
    (test 3)[4]? = some "prod i = 3: 128" ∧ (test 3)[5]? = some "prod2 i = 3: 1" := by
  have hmain := test_output_structure 3 (by decide)
  obtain ⟨e0, e1, _⟩ := hmain.2 3 (by decide) (by decide)
  rw [show 2 * ((3 : ℤ) - 1).toNat = 4 from rfl] at e0
  rw [show 2 * ((3 : ℤ) - 1).toNat + 1 = 5 from rfl] at e1
  refine ⟨hmain.1, ?_, ?_⟩
  · rw [e0]
    decide
  · rw [e1]
    decide
